import Mathlib

/-!
Verification of the Ochra single-image viewer core against its design
specification. The development shallowly embeds the directory navigator
(navigator.rs), the threaded background decoder and picture-load sequencer
(loader.rs), the animation frame player (picture.rs) and the zoom geometry
(interface.rs). File paths are abstracted to opaque identifiers, since the
code compares them only for equality and sort order; decoded pixel data is
abstracted to an opaque token; f64 arithmetic in the zoom computation is
embedded over the rationals; wall-clock instants become explicit natural
number time stamps.
-/

namespace Ochra

/-- Opaque model of std PathBuf: Ochra compares paths only for equality and
sorts them, so an identifier with a total order suffices. -/
abbrev Path := Nat

/-! ## navigator.rs -/

/-- navigator.rs NavigatorError. External payloads (io::Error, notify::Error)
carry no information the navigator inspects and are dropped; the IO
constructor is rendered IOError. -/
inductive NavigatorError where
  | IOError
  | Notify
  | InvalidPath (p : Path)
  | NoMatchingEntry (p : Path)
  | EmptyList
deriving DecidableEq

/-- navigator.rs NavigatorResult. -/
abbrev NavigatorResult (T : Type) := Except NavigatorError T

/-- notify DebouncedEvent variants consumed by FilepathsNavigator::refresh.
NoticeWrite, NoticeRemove and Error fall under the catch-all Other, exactly
as the source's final match arm treats them. -/
inductive DebouncedEvent where
  | Write (p : Path)
  | Create (p : Path)
  | Remove (p : Path)
  | Rename (src dst : Path)
  | Rescan
  | Chmod (p : Path)
  | Other
deriving DecidableEq

/-- Filepaths::search_for: first index whose entry equals the path
(Iterator::position over equality). -/
def search_for : List Path → Path → Option Nat
  | [], _ => none
  | q :: rest, p => if q = p then some 0 else (search_for rest p).map (· + 1)

/-- Filepaths::filter_by_extensions: retain entries whose extension matches
the allow-list; the case-insensitive extension test is abstracted to the
predicate the navigator stores. -/
def filter_by_extensions (l : List Path) (keep : Path → Bool) : List Path :=
  l.filter keep

/-- Filepaths::sort (Vec::sort, a stable comparison sort; over the total
order on path identifiers any stable sort produces the same list, and
insertion sort keeps the model computable by reduction). -/
def sortPaths (l : List Path) : List Path :=
  l.insertionSort (· ≤ ·)

/-- navigator.rs FilepathsNavigator. The watcher subscription is dropped;
its pending events are instead passed explicitly to refresh. The extensions
vector is represented by the filter predicate derived from it. -/
structure FilepathsNavigator where
  filepaths : List Path
  keepExt : Path → Bool
  cursor : Nat

/-- FilepathsNavigator::nonempty. -/
def FilepathsNavigator.nonempty (nav : FilepathsNavigator) : NavigatorResult Unit :=
  if nav.filepaths.isEmpty then .error .EmptyList else .ok ()

/-- FilepathsNavigator::selected. Rust indexes the vector (panicking out of
bounds, unreachable under the cursor invariant); modelled with a default. -/
def FilepathsNavigator.selected (nav : FilepathsNavigator) : Path :=
  nav.filepaths.getD nav.cursor 0

/-- FilepathsNavigator::from_path. The filesystem is passed explicitly:
listing is the file entries of the resolved directory (read_dir filtered to
is_file), isFile is path.is_file(). Cursor resolution and the trailing
nonempty check follow the source order. -/
def FilepathsNavigator.from_path (listing : List Path) (isFile : Bool)
    (path : Path) (keep : Path → Bool) : NavigatorResult FilepathsNavigator :=
  let filepaths := sortPaths (filter_by_extensions listing keep)
  let cursorR : NavigatorResult Nat :=
    if isFile then
      match search_for filepaths path with
      | some index => .ok index
      | none => .error (.NoMatchingEntry path)
    else .ok 0
  match cursorR with
  | .error e => .error e
  | .ok cursor =>
    let this : FilepathsNavigator := ⟨filepaths, keep, cursor⟩
    match this.nonempty with
    | .error e => .error e
    | .ok _ => .ok this

/-- FilepathsNavigator::navigate: cursor becomes
(cursor as i64 + direction).rem_euclid(len) as usize. Lean's Int.emod is the
euclidean remainder, matching rem_euclid; toNat models the cast back to
usize. -/
def FilepathsNavigator.navigate (nav : FilepathsNavigator) (direction : Int) :
    FilepathsNavigator :=
  { nav with
    cursor := ((((nav.cursor : Int) + direction) % (nav.filepaths.length : Int))).toNat }

/-- FilepathsNavigator::rescan: re-list the selected path's directory,
re-filter, re-sort, re-locate the selection by equality, then the nonempty
check. The fresh directory listing is passed explicitly. -/
def FilepathsNavigator.rescan (nav : FilepathsNavigator) (listing : List Path) :
    NavigatorResult FilepathsNavigator :=
  let sel := nav.selected
  let filepaths := sortPaths (filter_by_extensions listing nav.keepExt)
  match search_for filepaths sel with
  | none => .error (.NoMatchingEntry sel)
  | some cursor =>
    let this : FilepathsNavigator := ⟨filepaths, nav.keepExt, cursor⟩
    match this.nonempty with
    | .error e => .error e
    | .ok _ => .ok this

/-- One arm of the event-classification loop in FilepathsNavigator::refresh,
carrying the (dirty, rescan) flags exactly as the source's for loop does. -/
def refreshStep (nav : FilepathsNavigator) (dirty rescanFlag : Bool)
    (ev : DebouncedEvent) : NavigatorResult (FilepathsNavigator × Bool × Bool) :=
  match ev with
  | .Write p =>
    if p = nav.selected then .ok (nav, true, rescanFlag) else .ok (nav, dirty, rescanFlag)
  | .Rescan => .ok (nav, dirty, true)
  | .Chmod _ => .ok (nav, dirty, true)
  | .Create _ => .ok (nav, dirty, true)
  | .Remove p =>
    match search_for nav.filepaths p with
    | some index =>
      let filepaths := nav.filepaths.eraseIdx index
      if filepaths.isEmpty then .error .EmptyList
      else if index = nav.cursor then
        .ok (⟨filepaths, nav.keepExt, nav.cursor % filepaths.length⟩, true, rescanFlag)
      else if index < nav.cursor then
        .ok (⟨filepaths, nav.keepExt, nav.cursor - 1⟩, dirty, rescanFlag)
      else
        .ok (⟨filepaths, nav.keepExt, nav.cursor⟩, dirty, rescanFlag)
    | none => .ok (nav, dirty, rescanFlag)
  | .Rename src dst =>
    if src = nav.selected then
      .ok (⟨nav.filepaths.set nav.cursor dst, nav.keepExt, nav.cursor⟩, dirty, true)
    else .ok (nav, dirty, rescanFlag)
  | .Other => .ok (nav, dirty, rescanFlag)

/-- The event loop of FilepathsNavigator::refresh. -/
def refreshLoop : FilepathsNavigator → Bool → Bool → List DebouncedEvent →
    NavigatorResult (FilepathsNavigator × Bool × Bool)
  | nav, dirty, rescanFlag, [] => .ok (nav, dirty, rescanFlag)
  | nav, dirty, rescanFlag, ev :: rest =>
    match refreshStep nav dirty rescanFlag ev with
    | .error e => .error e
    | .ok (nav', dirty', rescan') => refreshLoop nav' dirty' rescan' rest

/-- FilepathsNavigator::refresh: drain the pending watch events (passed
explicitly), then rescan if requested, returning the navigator and the dirty
flag. -/
def FilepathsNavigator.refresh (nav : FilepathsNavigator)
    (events : List DebouncedEvent) (listing : List Path) :
    NavigatorResult (FilepathsNavigator × Bool) :=
  match refreshLoop nav false false events with
  | .error e => .error e
  | .ok (nav', dirty, rescanFlag) =>
    if rescanFlag then
      match nav'.rescan listing with
      | .error e => .error e
      | .ok nav'' => .ok (nav'', dirty)
    else .ok (nav', dirty)

/-- The navigator's cursor/list invariant: the cursor indexes strictly inside
the file list (which is therefore non-empty). -/
def NavInv (nav : FilepathsNavigator) : Prop :=
  nav.cursor < nav.filepaths.length

/-! ## loader.rs: ThreadedPictureDecoder

The worker thread's control point is explicit (idle in the polling loop, or
blocked on the continue channel after publishing). The three mpsc channels
become FIFO lists (the continue channel, carrying units, a counter); the
lock-guarded single-slot mailbox is an Option. The external decode
collaborator (open_picture) is a parameter. -/

/-- The worker loop's two control points: polling for requests, or blocked on
recv of the continue channel after publishing a finished path. -/
inductive WorkerPhase where
  | idle
  | awaitContinue
deriving DecidableEq

/-- loader.rs ThreadedPictureDecoder, with the worker thread's state made
explicit. π is the decode outcome type (PictureResult of Picture). -/
structure ThreadedPictureDecoder (π : Type) where
  reqChan : List Path
  pubChan : List Path
  contChan : Nat
  picture_result : Option π
  phase : WorkerPhase
  current_path : Option Path
deriving DecidableEq

/-- ThreadedPictureDecoder::new: empty channels, empty mailbox, worker
polling, no current path. -/
def ThreadedPictureDecoder.new {π : Type} : ThreadedPictureDecoder π :=
  ⟨[], [], 0, none, .idle, none⟩

/-- ThreadedPictureDecoder::set_filepath: send the path to the worker and
record it as current. -/
def ThreadedPictureDecoder.set_filepath {π : Type} (s : ThreadedPictureDecoder π)
    (p : Path) : ThreadedPictureDecoder π :=
  { s with reqChan := s.reqChan ++ [p], current_path := some p }

/-- Outcome of one main-thread poll: nothing yet, a fetched decode result, or
the panic of take().unwrap() on an empty mailbox. -/
inductive FetchOutcome (π : Type) where
  | empty
  | got (r : π)
  | panicked
deriving DecidableEq

/-- ThreadedPictureDecoder::try_fetch_picture: non-blocking try_recv of the
just-finished path; on a match take the mailbox (panicking if empty), on a
mismatch leave the mailbox in place; either way send the continue signal.
Disconnection cannot occur in the model (the worker never drops its
endpoints). -/
def try_fetch_picture {π : Type} (s : ThreadedPictureDecoder π) :
    FetchOutcome π × ThreadedPictureDecoder π :=
  match s.current_path with
  | none => (.empty, s)
  | some path =>
    match s.pubChan with
    | [] => (.empty, s)
    | filepath :: rest =>
      if filepath = path then
        match s.picture_result with
        | some r =>
          (.got r, { s with pubChan := rest, contChan := s.contChan + 1,
                            picture_result := none })
        | none => (.panicked, { s with pubChan := rest })
      else
        (.empty, { s with pubChan := rest, contChan := s.contChan + 1 })

/-- The worker's decode step: enabled only while polling with a pending
request. try_iter().last() drains the request channel and decodes only the
newest path; the outcome is stored in the mailbox, the path published, and
the worker moves to blocking on the continue channel. -/
def workerDecode {π : Type} (decode : Path → π) (s : ThreadedPictureDecoder π) :
    Option (ThreadedPictureDecoder π) :=
  match s.phase, s.reqChan.getLast? with
  | .idle, some p =>
    some { s with reqChan := [], picture_result := some (decode p),
                  pubChan := s.pubChan ++ [p], phase := .awaitContinue }
  | _, _ => none

/-- The worker's receive of the continue signal, unblocking it for the next
request. -/
def workerContinue {π : Type} (s : ThreadedPictureDecoder π) :
    Option (ThreadedPictureDecoder π) :=
  match s.phase, s.contChan with
  | .awaitContinue, c + 1 => some { s with contChan := c, phase := .idle }
  | _, _ => none

/-- States of the decoder handoff reachable from construction under any
interleaving of main-thread requests and polls with worker steps. -/
inductive Reachable {π : Type} (decode : Path → π) : ThreadedPictureDecoder π → Prop where
  | init : Reachable decode .new
  | set {s} (p : Path) : Reachable decode s → Reachable decode (s.set_filepath p)
  | fetch {s} : Reachable decode s → Reachable decode (try_fetch_picture s).2
  | wdec {s s'} : Reachable decode s → workerDecode decode s = some s' →
      Reachable decode s'
  | wcont {s s'} : Reachable decode s → workerContinue s = some s' →
      Reachable decode s'

/-- The handoff protocol invariant: the worker is blocked exactly while a
publication or its continue acknowledgment is in flight, at most one such
token exists, and a pending publication's mailbox holds that path's decode
outcome. -/
def ProtocolInv {π : Type} (decode : Path → π) (s : ThreadedPictureDecoder π) : Prop :=
  (s.phase = .awaitContinue ↔ s.pubChan.length + s.contChan = 1) ∧
  s.pubChan.length + s.contChan ≤ 1 ∧
  (∀ p, s.pubChan = [p] → s.picture_result = some (decode p))

/-! ## picture.rs: decoded pictures and the streaming frame player

Pixel data is irrelevant to every claim, so a still picture is an opaque
token; Duration and Instant become natural-number time values. -/

/-- picture.rs PictureError. External payloads (io::Error, image errors,
lcms2 errors) are opaque to the claims and dropped; the IO constructor is
rendered IOError. -/
inductive PictureError where
  | IOError
  | ImageError
  | ICCError
  | UnsupportedChannelCount (n : Nat)
  | UnsupportedImageFormat
  | UnsupportedPixelFormat
  | ZeroFrames
deriving DecidableEq

/-- picture.rs PictureResult. -/
abbrev PictureResult (T : Type) := Except PictureError T

/-- A decoded still frame, abstracted to an opaque token. -/
abbrev StillPicture := Nat

/-- The (width, height) pair produced by the fast dimension probe. -/
abbrev PictureDimensions := Nat × Nat

/-- picture.rs Sample: one frame of an animation with its declared
inter-frame interval (Duration, in abstract time units). -/
structure Sample (D : Type) where
  data : D
  interval : Nat
deriving DecidableEq

/-- picture.rs IteratorStasher: the not-yet-pulled tail of the underlying
frame iterator plus the stash of frames pulled so far. -/
structure IteratorStasher (α : Type) where
  iterator : List α
  stash : List α
deriving DecidableEq

/-- IteratorStasher::stash_next: pull one item from the iterator into the
stash, reporting whether anything was pulled. -/
def IteratorStasher.stash_next {α : Type} (s : IteratorStasher α) :
    Option Unit × IteratorStasher α :=
  match s.iterator with
  | [] => (none, s)
  | x :: rest => (some (), ⟨rest, s.stash ++ [x]⟩)

/-- picture.rs IteratorLooper: a stasher plus the playhead into the stash. -/
structure IteratorLooper (α : Type) where
  stasher : IteratorStasher α
  playhead : Nat
deriving DecidableEq

/-- IteratorLooper::new: stash the first item or fail with ZeroFrames. -/
def IteratorLooper.new {α : Type} (iterator : List α) :
    PictureResult (IteratorLooper α) :=
  match (IteratorStasher.mk iterator []).stash_next with
  | (none, _) => .error .ZeroFrames
  | (some _, stasher) => .ok ⟨stasher, 0⟩

/-- IteratorLooper::advance: eagerly stash one more item, read the entry at
the playhead (a panicking index in Rust, hence Option here), and step the
playhead modulo the stash length. -/
def IteratorLooper.advance {α : Type} (l : IteratorLooper α) :
    Option (α × IteratorLooper α) :=
  let st := l.stasher.stash_next.2
  match st.stash.get? l.playhead with
  | none => none
  | some entry => some (entry, ⟨st, (l.playhead + 1) % st.stash.length⟩)

/-- picture.rs StreamingPlayer: the looper plus the onset instant of the most
recently yielded frame and that frame's declared interval. -/
structure StreamingPlayer (D : Type) where
  looper : IteratorLooper (PictureResult (Sample D))
  onset : Nat
  interval : Nat

/-- StreamingPlayer::next at explicit time now (onset.elapsed() = now -
onset). If the active interval has elapsed, advance the looper: a good
sample is yielded and resets onset/interval, an error sample is surfaced
without resetting them; otherwise yield nothing and leave the player
untouched. The outer Option is the looper's indexing panic. -/
def StreamingPlayer.next {D : Type} (p : StreamingPlayer D) (now : Nat) :
    Option (PictureResult (Option D) × StreamingPlayer D) :=
  if p.interval ≤ now - p.onset then
    match p.looper.advance with
    | none => none
    | some (.ok sample, looper') =>
      some (.ok (some sample.data), ⟨looper', now, sample.interval⟩)
    | some (.error e, looper') =>
      some (.error e, { p with looper := looper' })
  else
    some (.ok none, p)

/-- Modelled from the spec: the FramesPlayer used by loader.rs is not present
under src/ (picture.rs ships an older StreamingPlayer with a different
signature); per section 4.3 it produces successive frame results of a
decoded animation, so it is modelled as the remaining lazy sequence of
those results. -/
def FramesPlayer := List (PictureResult StillPicture)

/-- Modelled from the spec: FramesPlayer::next yields the next frame result
of the animation, if any. -/
def FramesPlayer.next (p : FramesPlayer) :
    Option (PictureResult StillPicture) × FramesPlayer :=
  match p with
  | [] => (none, [])
  | x :: rest => (some x, rest)

/-- picture.rs Picture as consumed by loader.rs: a decoded still or an
animated frame player. -/
inductive Picture where
  | still (s : StillPicture)
  | motion (m : FramesPlayer)

/-! ## loader.rs: FrameStreamer, PictureLoadState, PictureLoader -/

/-- loader.rs FrameStreamer. -/
inductive FrameStreamer where
  | Still (s : Option StillPicture)
  | Motion (m : FramesPlayer)

/-- FrameStreamer::next: a still is taken once (then exhausted); a motion
delegates to the player. -/
def FrameStreamer.next : FrameStreamer → Option (PictureResult StillPicture) × FrameStreamer
  | .Still s => (s.map .ok, .Still none)
  | .Motion m =>
    let (item, m') := m.next
    (item, .Motion m')

/-- The From Picture impl for FrameStreamer. -/
def Picture.toFrameStreamer : Picture → FrameStreamer
  | .still s => .Still (some s)
  | .motion m => .Motion m

/-- loader.rs PictureLoadState. -/
inductive PictureLoadState where
  | PictureError (e : Option PictureError)
  | Loading (d : Option PictureDimensions)
  | Loaded (f : FrameStreamer)

/-- The From PictureResult-of-dimensions impl for PictureLoadState. -/
def pictureLoadStateOfProbe : PictureResult PictureDimensions → PictureLoadState
  | .ok d => .Loading (some d)
  | .error e => .PictureError (some e)

/-- loader.rs PictureLoadResult. -/
inductive PictureLoadResult where
  | PictureError (e : PictureError)
  | Loading (d : PictureDimensions)
  | Loaded (s : StillPicture)
deriving DecidableEq

/-- The From PictureResult-of-StillPicture impl for PictureLoadResult. -/
def loadResultOfFrame : PictureResult StillPicture → PictureLoadResult
  | .ok s => .Loaded s
  | .error e => .PictureError e

/-- loader.rs PictureLoader: the threaded decoder plus the load-state
sequencer. -/
structure PictureLoader where
  decoder : ThreadedPictureDecoder (PictureResult Picture)
  picture : Option PictureLoadState

/-- PictureLoader::new. -/
def PictureLoader.new : PictureLoader :=
  ⟨ThreadedPictureDecoder.new, none⟩

/-- PictureLoader::load: hand the path to the decoder, then seed the state
from the dimension probe. read_dimensions is the external probe collaborator
(absent from src/), so its result is a parameter. -/
def PictureLoader.load (l : PictureLoader) (path : Path)
    (probe : PictureResult PictureDimensions) : PictureLoader :=
  ⟨l.decoder.set_filepath path, some (pictureLoadStateOfProbe probe)⟩

/-- Iterator::next for PictureLoader. The source's single self-recursive call
(after storing the freshly fetched picture, landing in the Loaded arm) is
inlined. The outer Option is the take().unwrap() panic of the decoder
fetch. -/
def PictureLoader.next (l : PictureLoader) :
    Option (Option PictureLoadResult × PictureLoader) :=
  match l.picture with
  | none => some (none, l)
  | some state =>
    match state with
    | .PictureError e =>
      some (e.map .PictureError, { l with picture := some (.PictureError none) })
    | .Loading (some d) =>
      some (some (.Loading d), { l with picture := some (.Loading none) })
    | .Loading none =>
      match try_fetch_picture l.decoder with
      | (.empty, d') => some (none, { l with decoder := d' })
      | (.panicked, _) => none
      | (.got (.ok pic), d') =>
        let (item, streamer') := pic.toFrameStreamer.next
        some (item.map loadResultOfFrame, ⟨d', some (.Loaded streamer')⟩)
      | (.got (.error e), d') =>
        some (some (.PictureError e), { l with decoder := d' })
    | .Loaded streamer =>
      let (item, streamer') := streamer.next
      some (item.map loadResultOfFrame, { l with picture := some (.Loaded streamer') })

/-! ## interface.rs: zoom geometry

The f64 arithmetic of ZoomInteraction is embedded over the rationals.
Cursor positions are rational pairs, window origins integer pairs, sizes
natural pairs, matching PhysicalPosition of f64 / i32 and PhysicalSize of
u32. -/

/-- interface.rs MIN_WINDOW_SIZE. -/
def MIN_WINDOW_SIZE : ℚ := 100

/-- ZoomInteraction::ZOOM_SPEED. -/
def ZOOM_SPEED : ℚ := 3 / 1000

/-- Rust f64::round: half away from zero (Mathlib's round is half up, which
differs on negative half-integers). -/
def rustRound (x : ℚ) : ℤ :=
  if 0 ≤ x then ⌊x + 1 / 2⌋ else -⌊-x + 1 / 2⌋

/-- Rust f64::clamp (its debug assertion that lo is at most hi appears as a
hypothesis of the theorems that use it). -/
def rustClamp (x lo hi : ℚ) : ℚ :=
  if x < lo then lo else if hi < x then hi else x

/-- Modelled from the spec: painters.rs under src/ predates the GLViewport
struct; from its uses in interface.rs and the rendering interface of
section 6 it is an origin in signed pixels and a size in unsigned pixels. -/
structure GLViewport where
  origin : Int × Int
  size : Nat × Nat
deriving DecidableEq

/-- interface.rs ZoomInteraction: the snapshot captured on entering the zoom
state. -/
structure ZoomInteraction where
  cursor_captured : ℚ × ℚ
  window_origin_captured : Int × Int
  window_size_captured : Nat × Nat
  screen_size_captured : Nat × Nat
  zoom_bounds : ℚ × ℚ

/-- ZoomInteraction::cursor_to_screen_space: offset the window-local cursor
by the window origin. -/
def cursor_to_screen_space (window_origin : Int × Int) (cursor : ℚ × ℚ) : ℚ × ℚ :=
  (cursor.1 + (window_origin.1 : ℚ), cursor.2 + (window_origin.2 : ℚ))

/-- ZoomInteraction::new, given the captured cursor (already in screen
space), window origin, window size and screen size: zoom_bounds.1 scales the
larger-ratio dimension down to MIN_WINDOW_SIZE, zoom_bounds.2 is the
screen-fit ratio along the binding axis. -/
def ZoomInteraction.new (cursor : ℚ × ℚ) (origin : Int × Int)
    (window screen : Nat × Nat) : ZoomInteraction :=
  let screen_ratio : ℚ := (screen.1 : ℚ) / (screen.2 : ℚ)
  let window_ratio : ℚ := (window.1 : ℚ) / (window.2 : ℚ)
  let lo : ℚ :=
    if 1 < window_ratio then MIN_WINDOW_SIZE / (window.1 : ℚ)
    else MIN_WINDOW_SIZE / (window.2 : ℚ)
  let hi : ℚ :=
    if window_ratio < screen_ratio then (screen.2 : ℚ) / (window.2 : ℚ)
    else (screen.1 : ℚ) / (window.1 : ℚ)
  ⟨cursor, origin, window, screen, (lo, hi)⟩

/-- One factor of the multiplicative zoom model: 1 + delta for non-negative
delta, 1 / (1 - delta) for negative (always positive, smooth through
zero). -/
def zoomStep (d : ℚ) : ℚ :=
  if d < 0 then 1 / (1 - d) else 1 + d

/-- The clamped zoom factor computed by ZoomInteraction::compute_viewport
from the current cursor: horizontal and vertical cursor deltas since
capture, scaled by ZOOM_SPEED (the vertical one negated), multiplied
together, clamped into the captured bounds. -/
def ZoomInteraction.zoomFactor (z : ZoomInteraction) (origin_now : Int × Int)
    (cursor : ℚ × ℚ) : ℚ :=
  let c := cursor_to_screen_space origin_now cursor
  let d1 := (c.1 - z.cursor_captured.1) * ZOOM_SPEED
  let d2 := (c.2 - z.cursor_captured.2) * (-ZOOM_SPEED)
  rustClamp (1 * zoomStep d1 * zoomStep d2) z.zoom_bounds.1 z.zoom_bounds.2

/-- ZoomInteraction::compute_viewport: scale the captured origin about the
captured cursor and the captured size by the zoom factor, then flip the
vertical coordinate into the bottom-left-origin viewport convention. -/
def ZoomInteraction.compute_viewport (z : ZoomInteraction) (origin_now : Int × Int)
    (cursor : ℚ × ℚ) : GLViewport :=
  let zoom := z.zoomFactor origin_now cursor
  let ox := rustRound (((z.window_origin_captured.1 : ℚ) - z.cursor_captured.1) * zoom
              + z.cursor_captured.1)
  let oy := rustRound (((z.window_origin_captured.2 : ℚ) - z.cursor_captured.2) * zoom
              + z.cursor_captured.2)
  let sw := (rustRound ((z.window_size_captured.1 : ℚ) * zoom)).toNat
  let sh := (rustRound ((z.window_size_captured.2 : ℚ) * zoom)).toNat
  ⟨(ox, (z.screen_size_captured.2 : Int) - (oy + (sh : Int))), (sw, sh)⟩

/-! ## Navigator lemmas and theorems -/

lemma search_for_lt {l : List Path} {p : Path} {i : Nat}
    (h : search_for l p = some i) : i < l.length := by
  induction l generalizing i with
  | nil => simp [search_for] at h
  | cons q rest ih =>
    simp only [search_for] at h
    split at h
    · cases h
      simp only [List.length_cons]
      omega
    · rcases hrest : search_for rest p with - | j <;> rw [hrest] at h
      · simp at h
      · rw [Option.map_some'] at h
        cases h
        have := ih hrest
        simp only [List.length_cons]
        omega

lemma length_pos_of_not_isEmpty {l : List Path} (h : ¬ l.isEmpty = true) :
    0 < l.length := by
  rcases l with - | ⟨a, t⟩
  · simp at h
  · simp

lemma refreshStep_inv {nav : FilepathsNavigator} {dirty r : Bool}
    {ev : DebouncedEvent} {nav' : FilepathsNavigator} {dirty' r' : Bool}
    (h : NavInv nav) (hstep : refreshStep nav dirty r ev = .ok (nav', dirty', r')) :
    NavInv nav' := by
  cases ev with
  | Write p =>
    simp only [refreshStep] at hstep
    split at hstep <;> · cases hstep; exact h
  | Rescan => cases hstep; exact h
  | Chmod p => cases hstep; exact h
  | Create p => cases hstep; exact h
  | Other => cases hstep; exact h
  | Rename src dst =>
    simp only [refreshStep] at hstep
    split at hstep
    · cases hstep
      simpa [NavInv] using h
    · cases hstep; exact h
  | Remove p =>
    simp only [refreshStep] at hstep
    split at hstep
    · rename_i index hf
      have hidx := search_for_lt hf
      have herase := List.length_eraseIdx_of_lt hidx
      split at hstep
      · cases hstep
      · rename_i hemp
        have hpos := length_pos_of_not_isEmpty hemp
        split at hstep
        · cases hstep
          exact Nat.mod_lt _ hpos
        · split at hstep
          · rename_i hne hlt
            cases hstep
            simp only [NavInv] at h ⊢
            omega
          · rename_i hne hge
            cases hstep
            simp only [NavInv] at h ⊢
            omega
    · cases hstep; exact h

lemma refreshLoop_inv {events : List DebouncedEvent} {nav : FilepathsNavigator}
    {dirty r : Bool} {out : FilepathsNavigator × Bool × Bool}
    (h : NavInv nav) (hloop : refreshLoop nav dirty r events = .ok out) :
    NavInv out.1 := by
  induction events generalizing nav dirty r with
  | nil =>
    cases hloop
    exact h
  | cons ev rest ih =>
    simp only [refreshLoop] at hloop
    split at hloop
    · cases hloop
    · rename_i nav1 dirty1 r1 heq
      exact ih (refreshStep_inv h heq) hloop

lemma rescan_inv {nav : FilepathsNavigator} {listing : List Path}
    {nav' : FilepathsNavigator} (h : nav.rescan listing = .ok nav') :
    NavInv nav' := by
  simp only [FilepathsNavigator.rescan, FilepathsNavigator.nonempty] at h
  split at h
  · cases h
  · rename_i cursor hf
    split at h
    · cases h
    · cases h
      exact search_for_lt hf

lemma from_path_inv {listing : List Path} {isFile : Bool} {path : Path}
    {keep : Path → Bool} {nav : FilepathsNavigator}
    (h : FilepathsNavigator.from_path listing isFile path keep = .ok nav) :
    NavInv nav := by
  simp only [FilepathsNavigator.from_path, FilepathsNavigator.nonempty] at h
  split at h
  · cases h
  · rename_i cursor hcur
    split at h
    · cases h
    · rename_i hemp
      cases h
      simp only [NavInv]
      have hpos : 0 < (sortPaths (filter_by_extensions listing keep)).length := by
        split at hemp
        · cases hemp
        · rename_i hne
          exact length_pos_of_not_isEmpty hne
      split at hcur
      · split at hcur
        · rename_i index hs
          cases hcur
          exact search_for_lt hs
        · cases hcur
      · cases hcur
        exact hpos

/-- C3: for a navigator over a non-empty file list, navigate(d) sets the
cursor to (cursor + d) taken with the euclidean modulus of the list length
(so negative steps wrap backwards), and leaves the file list unchanged. -/
theorem navigate_wraps (nav : FilepathsNavigator) (direction : Int)
    (h : nav.filepaths ≠ []) :
    ((nav.navigate direction).cursor : Int)
      = ((nav.cursor : Int) + direction).emod (nav.filepaths.length : Int) ∧
    (nav.navigate direction).filepaths = nav.filepaths := by
  refine ⟨?_, rfl⟩
  have hlen : (nav.filepaths.length : Int) ≠ 0 := by
    have : nav.filepaths.length ≠ 0 := by
      intro h0
      exact h (List.length_eq_zero.mp h0)
    exact_mod_cast this
  exact Int.toNat_of_nonneg (Int.emod_nonneg _ hlen)

/-- Witness for navigate_wraps: a three-entry list with cursor 2 stepped by
-4 wraps to cursor 1. -/
theorem navigate_wraps_witness :
    (⟨[10, 20, 30], fun _ => true, 2⟩ : FilepathsNavigator).filepaths ≠ [] ∧
    ((FilepathsNavigator.navigate ⟨[10, 20, 30], fun _ => true, 2⟩ (-4)).cursor : Int)
      = (((⟨[10, 20, 30], fun _ => true, 2⟩ : FilepathsNavigator).cursor : Int) + (-4)).emod
          ((⟨[10, 20, 30], fun _ => true, 2⟩ : FilepathsNavigator).filepaths.length : Int) ∧
    (FilepathsNavigator.navigate ⟨[10, 20, 30], fun _ => true, 2⟩ (-4)).filepaths
      = (⟨[10, 20, 30], fun _ => true, 2⟩ : FilepathsNavigator).filepaths := by
  refine ⟨by simp, ?_⟩
  exact navigate_wraps ⟨[10, 20, 30], fun _ => true, 2⟩ (-4) (by simp)

/-- C4: refresh of a single Remove event for a listed path at index i (list
staying non-empty) deletes the entry; removing the selected entry wraps the
cursor modulo the new length and reports dirty; removing before the cursor
decrements it by one; removing after it leaves it unchanged. -/
theorem refresh_remove_adjacency (nav : FilepathsNavigator) (p : Path) (i : Nat)
    (listing : List Path)
    (hfind : search_for nav.filepaths p = some i)
    (hlen : 1 < nav.filepaths.length) :
    ∃ nav' dirty,
      nav.refresh [.Remove p] listing = .ok (nav', dirty) ∧
      nav'.filepaths = nav.filepaths.eraseIdx i ∧
      (i = nav.cursor →
        nav'.cursor = nav.cursor % (nav.filepaths.length - 1) ∧ dirty = true) ∧
      (i < nav.cursor → nav'.cursor = nav.cursor - 1) ∧
      (nav.cursor < i → nav'.cursor = nav.cursor) := by
  have hi := search_for_lt hfind
  have herase := List.length_eraseIdx_of_lt hi
  have hemp : (nav.filepaths.eraseIdx i).isEmpty = false := by
    rcases hl : nav.filepaths.eraseIdx i with - | ⟨a, t⟩
    · rw [hl] at herase
      simp at herase
      omega
    · simp
  have hnotemp : ¬ ((nav.filepaths.eraseIdx i).isEmpty = true) := by
    rw [hemp]
    simp
  by_cases hc : i = nav.cursor
  · have hstep : refreshStep nav false false (.Remove p)
        = .ok (⟨nav.filepaths.eraseIdx i, nav.keepExt,
                nav.cursor % (nav.filepaths.eraseIdx i).length⟩, true, false) := by
      simp only [refreshStep, hfind]
      rw [if_neg hnotemp, if_pos hc]
    refine ⟨⟨nav.filepaths.eraseIdx i, nav.keepExt,
        nav.cursor % (nav.filepaths.eraseIdx i).length⟩, true, ?_, rfl, ?_, ?_, ?_⟩
    · simp [FilepathsNavigator.refresh, refreshLoop, hstep]
    · intro _
      rw [herase]
      exact ⟨rfl, rfl⟩
    · omega
    · omega
  · by_cases hlt : i < nav.cursor
    · have hstep : refreshStep nav false false (.Remove p)
          = .ok (⟨nav.filepaths.eraseIdx i, nav.keepExt, nav.cursor - 1⟩, false, false) := by
        simp only [refreshStep, hfind]
        rw [if_neg hnotemp, if_neg hc, if_pos hlt]
      refine ⟨⟨nav.filepaths.eraseIdx i, nav.keepExt, nav.cursor - 1⟩, false,
          ?_, rfl, ?_, ?_, ?_⟩
      · simp [FilepathsNavigator.refresh, refreshLoop, hstep]
      · omega
      · intro _
        rfl
      · omega
    · have hstep : refreshStep nav false false (.Remove p)
          = .ok (⟨nav.filepaths.eraseIdx i, nav.keepExt, nav.cursor⟩, false, false) := by
        simp only [refreshStep, hfind]
        rw [if_neg hnotemp, if_neg hc, if_neg hlt]
      refine ⟨⟨nav.filepaths.eraseIdx i, nav.keepExt, nav.cursor⟩, false,
          ?_, rfl, ?_, ?_, ?_⟩
      · simp [FilepathsNavigator.refresh, refreshLoop, hstep]
      · omega
      · omega
      · intro _
        rfl

/-- Witness for refresh_remove_adjacency: removing the selected middle entry
of a three-entry list. -/
theorem refresh_remove_adjacency_witness :
    search_for (⟨[10, 20, 30], fun _ => true, 1⟩ : FilepathsNavigator).filepaths 20
        = some 1 ∧
    1 < (⟨[10, 20, 30], fun _ => true, 1⟩ : FilepathsNavigator).filepaths.length ∧
    (∃ nav' dirty,
      FilepathsNavigator.refresh ⟨[10, 20, 30], fun _ => true, 1⟩ [.Remove 20] []
          = .ok (nav', dirty) ∧
      nav'.filepaths = [10, 20, 30].eraseIdx 1 ∧
      (1 = (⟨[10, 20, 30], fun _ => true, 1⟩ : FilepathsNavigator).cursor →
        nav'.cursor = 1 % ([10, 20, 30].length - 1) ∧ dirty = true) ∧
      (1 < (⟨[10, 20, 30], fun _ => true, 1⟩ : FilepathsNavigator).cursor →
        nav'.cursor = 1 - 1) ∧
      ((⟨[10, 20, 30], fun _ => true, 1⟩ : FilepathsNavigator).cursor < 1 →
        nav'.cursor = 1)) := by
  refine ⟨rfl, by simp, ?_⟩
  exact refresh_remove_adjacency ⟨[10, 20, 30], fun _ => true, 1⟩ 20 1 [] rfl (by simp)

/-- C9 counterexample: a Create event forces a rescan; when the rescanned
directory listing no longer contains the selection (here it is empty, so the
operation empties the list), refresh fails with NoMatchingEntry, not with
EmptyList as claimed. -/
theorem empty_error_cex :
    FilepathsNavigator.refresh ⟨[5], fun _ => true, 0⟩ [.Create 0] []
      = .error (.NoMatchingEntry 5) ∧
    NavigatorError.NoMatchingEntry 5 ≠ NavigatorError.EmptyList :=
  ⟨rfl, by decide⟩

/-- C9 (amended): every Ok-returning navigator operation (from_path,
navigate, refresh with its internal rescan) maintains the cursor strictly
inside the list, so selected always indexes within bounds; an operation that
would empty the list fails, with EmptyList in the Remove path (a rescan of a
listing that lost the selection fails with NoMatchingEntry instead). -/
theorem nav_cursor_invariant :
    (∀ listing isFile path keep nav,
      FilepathsNavigator.from_path listing isFile path keep = .ok nav → NavInv nav) ∧
    (∀ (nav : FilepathsNavigator) (d : Int), NavInv nav → NavInv (nav.navigate d)) ∧
    (∀ nav events listing out, NavInv nav →
      FilepathsNavigator.refresh nav events listing = .ok out → NavInv out.1) ∧
    (∀ nav (h : NavInv nav), nav.selected = nav.filepaths.get ⟨nav.cursor, h⟩) ∧
    (∀ (nav : FilepathsNavigator) (dirty r : Bool) (p : Path) (i : Nat),
      search_for nav.filepaths p = some i → nav.filepaths.length = 1 →
      refreshStep nav dirty r (.Remove p) = .error .EmptyList) := by
  refine ⟨?_, ?_, ?_, ?_, ?_⟩
  · intro listing isFile path keep nav h
    exact from_path_inv h
  · intro nav d h
    simp only [NavInv, FilepathsNavigator.navigate] at h ⊢
    have hne : (nav.filepaths.length : Int) ≠ 0 := by omega
    have h1 := Int.emod_nonneg ((nav.cursor : Int) + d) hne
    have h2 := Int.emod_lt_of_pos ((nav.cursor : Int) + d)
      (by omega : (0 : Int) < (nav.filepaths.length : Int))
    omega
  · intro nav events listing out h href
    simp only [FilepathsNavigator.refresh] at href
    split at href
    · cases href
    · rename_i nav1 dirty rescanFlag hloop
      split at href
      · split at href
        · cases href
        · rename_i nav2 hres
          cases href
          exact rescan_inv hres
      · cases href
        exact refreshLoop_inv h hloop
  · intro nav h
    simp only [FilepathsNavigator.selected]
    rw [List.getD_eq_getElem nav.filepaths 0 h]
    simp
  · intro nav dirty r p i hfind hone
    have hi := search_for_lt hfind
    have hz : i = 0 := by omega
    subst hz
    have htail : nav.filepaths.eraseIdx 0 = [] := by
      have := List.length_eraseIdx_of_lt hi
      rw [hone] at this
      exact List.length_eq_zero.mp (by omega)
    simp only [refreshStep, hfind, htail]
    simp

/-- Witness for nav_cursor_invariant: from_path over a one-file directory
yields a navigator satisfying the invariant. -/
theorem nav_cursor_invariant_witness :
    FilepathsNavigator.from_path [3] false 0 (fun _ => true)
        = .ok ⟨[3], fun _ => true, 0⟩ ∧
    NavInv (⟨[3], fun _ => true, 0⟩ : FilepathsNavigator) := by
  have h : FilepathsNavigator.from_path [3] false 0 (fun _ => true)
      = .ok ⟨[3], fun _ => true, 0⟩ := rfl
  exact ⟨h, nav_cursor_invariant.1 [3] false 0 (fun _ => true) _ h⟩

/-! ## Decoder handoff lemmas and theorems -/

lemma reachable_inv {π : Type} {decode : Path → π} {s : ThreadedPictureDecoder π}
    (h : Reachable decode s) : ProtocolInv decode s := by
  induction h with
  | init =>
    refine ⟨by simp [ThreadedPictureDecoder.new], by simp [ThreadedPictureDecoder.new], ?_⟩
    intro p hp
    simp [ThreadedPictureDecoder.new] at hp
  | set p hr ih => exact ih
  | fetch hr ih =>
    rename_i s
    obtain ⟨i1, i2, i3⟩ := ih
    rcases hcur : s.current_path with - | path
    · simp only [try_fetch_picture, hcur]
      exact ⟨i1, i2, i3⟩
    · rcases hpub : s.pubChan with - | ⟨fp, rest⟩
      · simp only [try_fetch_picture, hcur, hpub]
        exact ⟨i1, i2, i3⟩
      · have hlen : s.pubChan.length + s.contChan ≤ 1 := i2
        rw [hpub] at hlen
        simp only [List.length_cons] at hlen
        have hrest : rest = [] := by
          rcases rest with - | _
          · rfl
          · exfalso
            simp only [List.length_cons] at hlen
            omega
        subst hrest
        simp only [List.length_nil] at hlen
        have hcont : s.contChan = 0 := by omega
        have hphase : s.phase = .awaitContinue := by
          apply i1.mpr
          rw [hpub, hcont]
          simp
        have hmb : s.picture_result = some (decode fp) := i3 fp hpub
        by_cases hfp : fp = path
        · simp only [try_fetch_picture, hcur, hpub, hfp, if_pos rfl, hmb]
          refine ⟨?_, by simp [hcont], ?_⟩
          · simp [hphase, hcont]
          · intro q hq
            simp at hq
        · simp only [try_fetch_picture, hcur, hpub, if_neg hfp]
          refine ⟨?_, by simp [hcont], ?_⟩
          · simp [hphase, hcont]
          · intro q hq
            simp at hq
  | wdec hr hstep ih =>
    rename_i s s'
    obtain ⟨i1, i2, i3⟩ := ih
    simp only [workerDecode] at hstep
    split at hstep
    · rename_i hphase hlast
      cases hstep
      have hsum : s.pubChan.length + s.contChan ≠ 1 := by
        intro hh
        rw [i1.mpr hh] at hphase
        cases hphase
      have hpubnil : s.pubChan = [] := by
        rcases hp : s.pubChan with - | ⟨a, t⟩
        · rfl
        · exfalso
          rw [hp] at hsum i2
          simp only [List.length_cons] at hsum i2
          omega
      have hcont : s.contChan = 0 := by
        rw [hpubnil] at hsum i2
        simp only [List.length_nil] at hsum i2
        omega
      refine ⟨?_, ?_, ?_⟩
      · simp [hpubnil, hcont]
      · simp [hpubnil, hcont]
      · intro q hq
        rw [hpubnil] at hq
        simp only [List.nil_append, List.cons.injEq] at hq
        rw [hq.1]
    · cases hstep
  | wcont hr hstep ih =>
    rename_i s s'
    obtain ⟨i1, i2, i3⟩ := ih
    simp only [workerContinue] at hstep
    split at hstep
    · rename_i c hphase hcont
      cases hstep
      have hsum : s.pubChan.length + s.contChan = 1 := i1.mp hphase
      have hpubnil : s.pubChan = [] := by
        rcases hp : s.pubChan with - | ⟨a, t⟩
        · rfl
        · exfalso
          rw [hp] at hsum
          simp only [List.length_cons] at hsum
          omega
      have hc : s.contChan = c + 1 := hcont
      have hcz : c = 0 := by
        rw [hpubnil] at hsum
        simp only [List.length_nil] at hsum
        omega
      refine ⟨?_, ?_, ?_⟩
      · constructor
        · intro hh
          cases hh
        · intro hh
          simp only [hpubnil, List.length_nil, hcz] at hh
          exact absurd hh (by decide)
      · show s.pubChan.length + c ≤ 1
        rw [hpubnil, hcz]
        simp
      · intro q hq
        have hq' : s.pubChan = [q] := hq
        rw [hpubnil] at hq'
        cases hq'
    · cases hstep

/-- C1: in every reachable decoder state with a published-but-unreceived
path p, the mailbox holds exactly p's decode outcome, the worker is blocked
awaiting the continue signal (so it can accept no further request and in
particular cannot overwrite the mailbox), and a poll while p is still the
current path drains exactly that outcome, uncorrupted. -/
theorem decoder_backpressure {π : Type} (decode : Path → π)
    (s : ThreadedPictureDecoder π) (p : Path)
    (hr : Reachable decode s) (hpub : s.pubChan = [p]) :
    s.picture_result = some (decode p) ∧
    s.phase = .awaitContinue ∧
    workerDecode decode s = none ∧
    (s.current_path = some p → (try_fetch_picture s).1 = .got (decode p)) := by
  obtain ⟨i1, i2, i3⟩ := reachable_inv hr
  have hcont : s.contChan = 0 := by
    have := i2
    rw [hpub] at this
    simp at this
    omega
  have hmb := i3 p hpub
  have hphase : s.phase = .awaitContinue := by
    apply i1.mpr
    rw [hpub, hcont]
    simp
  refine ⟨hmb, hphase, ?_, ?_⟩
  · simp only [workerDecode, hphase]
  · intro hcur
    simp [try_fetch_picture, hcur, hpub, hmb]

/-- Witness for decoder_backpressure: request path 7, let the worker decode
it; the published result is intact and the worker blocked. -/
theorem decoder_backpressure_witness :
    Reachable (fun p : Path => p + 100)
      (⟨[], [7], 0, some 107, .awaitContinue, some 7⟩ : ThreadedPictureDecoder Nat) ∧
    (⟨[], [7], 0, some 107, .awaitContinue, some 7⟩ : ThreadedPictureDecoder Nat).pubChan = [7] ∧
    ((⟨[], [7], 0, some 107, .awaitContinue, some 7⟩ : ThreadedPictureDecoder Nat).picture_result
        = some 107 ∧
     (⟨[], [7], 0, some 107, .awaitContinue, some 7⟩ : ThreadedPictureDecoder Nat).phase
        = .awaitContinue ∧
     workerDecode (fun p : Path => p + 100)
        (⟨[], [7], 0, some 107, .awaitContinue, some 7⟩ : ThreadedPictureDecoder Nat) = none ∧
     ((⟨[], [7], 0, some 107, .awaitContinue, some 7⟩ : ThreadedPictureDecoder Nat).current_path
          = some 7 →
       (try_fetch_picture
          (⟨[], [7], 0, some 107, .awaitContinue, some 7⟩ : ThreadedPictureDecoder Nat)).1
          = .got 107)) := by
  have hr : Reachable (fun p : Path => p + 100)
      (⟨[], [7], 0, some 107, .awaitContinue, some 7⟩ : ThreadedPictureDecoder Nat) := by
    have h1 : Reachable (fun p : Path => p + 100)
        (ThreadedPictureDecoder.new.set_filepath 7 : ThreadedPictureDecoder Nat) :=
      Reachable.set 7 Reachable.init
    exact Reachable.wdec h1 rfl
  exact ⟨hr, rfl, decoder_backpressure (fun p => p + 100) _ 7 hr rfl⟩

/-- C2: a poll surfaces a decode outcome only when the published path equals
the current path; on a mismatch the poll returns nothing, pops the stale
path, releases the worker with a continue signal, and leaves the mailbox
untouched, so the stale outcome is never returned. -/
theorem stale_result_filtering {π : Type} (s : ThreadedPictureDecoder π)
    (path fp : Path) (rest : List Path)
    (hcur : s.current_path = some path) (hpub : s.pubChan = fp :: rest) :
    (∀ r : π, (try_fetch_picture s).1 = .got r → fp = path) ∧
    (fp = path → ∀ r : π, s.picture_result = some r → (try_fetch_picture s).1 = .got r) ∧
    (fp ≠ path →
      (try_fetch_picture s).1 = .empty ∧
      (try_fetch_picture s).2.pubChan = rest ∧
      (try_fetch_picture s).2.contChan = s.contChan + 1 ∧
      (try_fetch_picture s).2.picture_result = s.picture_result) := by
  refine ⟨?_, ?_, ?_⟩
  · intro r hgot
    by_contra hfp
    simp [try_fetch_picture, hcur, hpub, hfp] at hgot
  · intro hfp r hmb
    simp [try_fetch_picture, hcur, hpub, hfp, hmb]
  · intro hfp
    simp [try_fetch_picture, hcur, hpub, hfp]

/-- Witness for stale_result_filtering: current path 5, stale publication 3:
the poll returns nothing, drains the path, signals continue, keeps the
mailbox. -/
theorem stale_result_filtering_witness :
    (⟨[], [3], 0, some 42, .awaitContinue, some 5⟩ : ThreadedPictureDecoder Nat).current_path
        = some 5 ∧
    (⟨[], [3], 0, some 42, .awaitContinue, some 5⟩ : ThreadedPictureDecoder Nat).pubChan
        = 3 :: [] ∧
    ((∀ r : Nat,
        (try_fetch_picture
          (⟨[], [3], 0, some 42, .awaitContinue, some 5⟩ : ThreadedPictureDecoder Nat)).1
          = .got r → (3 : Path) = 5) ∧
     ((3 : Path) = 5 → ∀ r : Nat,
        (⟨[], [3], 0, some 42, .awaitContinue, some 5⟩ : ThreadedPictureDecoder Nat).picture_result
          = some r →
        (try_fetch_picture
          (⟨[], [3], 0, some 42, .awaitContinue, some 5⟩ : ThreadedPictureDecoder Nat)).1
          = .got r) ∧
     ((3 : Path) ≠ 5 →
      (try_fetch_picture
          (⟨[], [3], 0, some 42, .awaitContinue, some 5⟩ : ThreadedPictureDecoder Nat)).1
          = .empty ∧
      (try_fetch_picture
          (⟨[], [3], 0, some 42, .awaitContinue, some 5⟩ : ThreadedPictureDecoder Nat)).2.pubChan
          = [] ∧
      (try_fetch_picture
          (⟨[], [3], 0, some 42, .awaitContinue, some 5⟩ : ThreadedPictureDecoder Nat)).2.contChan
          = 0 + 1 ∧
      (try_fetch_picture
          (⟨[], [3], 0, some 42, .awaitContinue, some 5⟩ : ThreadedPictureDecoder Nat)).2.picture_result
          = (⟨[], [3], 0, some 42, .awaitContinue, some 5⟩ : ThreadedPictureDecoder Nat).picture_result)) :=
  ⟨rfl, rfl, stale_result_filtering ⟨[], [3], 0, some 42, .awaitContinue, some 5⟩ 5 3 [] rfl rfl⟩

/-- C10: in every reachable decoder state, a poll never panics: whenever the
received published path matches the current path, the mailbox is full, so
take().unwrap() always succeeds. -/
theorem fetch_never_panics {π : Type} (decode : Path → π)
    (s : ThreadedPictureDecoder π) (hr : Reachable decode s) :
    (try_fetch_picture s).1 ≠ .panicked := by
  obtain ⟨i1, i2, i3⟩ := reachable_inv hr
  rcases hcur : s.current_path with - | path
  · simp [try_fetch_picture, hcur]
  · rcases hpub : s.pubChan with - | ⟨fp, rest⟩
    · simp [try_fetch_picture, hcur, hpub]
    · have hrest : rest = [] := by
        have := i2
        rw [hpub] at this
        rcases rest with - | _
        · rfl
        · exfalso
          simp only [List.length_cons] at this
          omega
      subst hrest
      have hmb := i3 fp hpub
      by_cases hfp : fp = path
      · simp [try_fetch_picture, hcur, hpub, hfp, hmb]
      · simp [try_fetch_picture, hcur, hpub, hfp]

/-- Witness for fetch_never_panics, at the same reachable state as the
back-pressure witness. -/
theorem fetch_never_panics_witness :
    Reachable (fun p : Path => p + 100)
      (⟨[], [7], 0, some 107, .awaitContinue, some 7⟩ : ThreadedPictureDecoder Nat) ∧
    (try_fetch_picture
        (⟨[], [7], 0, some 107, .awaitContinue, some 7⟩ : ThreadedPictureDecoder Nat)).1
      ≠ .panicked := by
  have hr : Reachable (fun p : Path => p + 100)
      (⟨[], [7], 0, some 107, .awaitContinue, some 7⟩ : ThreadedPictureDecoder Nat) := by
    have h1 : Reachable (fun p : Path => p + 100)
        (ThreadedPictureDecoder.new.set_filepath 7 : ThreadedPictureDecoder Nat) :=
      Reachable.set 7 Reachable.init
    exact Reachable.wdec h1 rfl
  exact ⟨hr, fetch_never_panics (fun p => p + 100) _ hr⟩

/-! ## Sequencer and frame-player theorems -/

/-- C7: loading a path whose probe succeeds and whose decode yields a valid
still picture makes the sequencer yield Loading(dimensions), then — once the
worker has decoded — Loaded(frame), after which it is exhausted (next is
none with the state a fixed point); loading a path whose probe fails yields
exactly one PictureError item and is then likewise exhausted, the error
never repeated. -/
theorem sequencer_phase_order (p : Path) (d : PictureDimensions) (s : StillPicture)
    (decode : Path → PictureResult Picture) (e : PictureError)
    (hdec : decode p = .ok (.still s)) :
    (∃ l1 dec2 l3,
      (PictureLoader.new.load p (.ok d)).next = some (some (.Loading d), l1) ∧
      workerDecode decode l1.decoder = some dec2 ∧
      (PictureLoader.mk dec2 l1.picture).next = some (some (.Loaded s), l3) ∧
      l3.next = some (none, l3)) ∧
    (∃ l1,
      (PictureLoader.new.load p (.error e)).next = some (some (.PictureError e), l1) ∧
      l1.next = some (none, l1)) := by
  constructor
  · refine ⟨⟨⟨[p], [], 0, none, .idle, some p⟩, some (.Loading none)⟩,
        ⟨[], [p], 0, some (decode p), .awaitContinue, some p⟩,
        ⟨⟨[], [], 1, none, .awaitContinue, some p⟩, some (.Loaded (.Still none))⟩,
        rfl, rfl, ?_, rfl⟩
    simp [PictureLoader.next, try_fetch_picture, hdec, Picture.toFrameStreamer,
          FrameStreamer.next, loadResultOfFrame]
  · exact ⟨⟨⟨[p], [], 0, none, .idle, some p⟩, some (.PictureError none)⟩, rfl, rfl⟩

/-- Witness for sequencer_phase_order at path 1, probed dimensions (2, 3),
still frame 4, and probe error ZeroFrames. -/
theorem sequencer_phase_order_witness :
    (fun _ : Path => (Except.ok (Picture.still 4) : PictureResult Picture)) 1
        = Except.ok (Picture.still 4) ∧
    ((∃ l1 dec2 l3,
      (PictureLoader.new.load 1 (.ok (2, 3))).next = some (some (.Loading (2, 3)), l1) ∧
      workerDecode (fun _ : Path => (Except.ok (Picture.still 4) : PictureResult Picture))
          l1.decoder = some dec2 ∧
      (PictureLoader.mk dec2 l1.picture).next = some (some (.Loaded 4), l3) ∧
      l3.next = some (none, l3)) ∧
    (∃ l1,
      (PictureLoader.new.load 1 (.error .ZeroFrames)).next
          = some (some (.PictureError .ZeroFrames), l1) ∧
      l1.next = some (none, l1))) :=
  ⟨rfl, sequencer_phase_order 1 (2, 3) 4
      (fun _ => .ok (.still 4)) .ZeroFrames rfl⟩

lemma player_yield_elapsed {D : Type} {p : StreamingPlayer D} {now : Nat}
    {d : D} {p' : StreamingPlayer D}
    (h : p.next now = some (.ok (some d), p')) : p.interval ≤ now - p.onset := by
  by_contra hlt
  simp only [StreamingPlayer.next, if_neg hlt] at h
  simp at h

lemma advance_playhead {α : Type} {l : IteratorLooper α} {entry : α}
    {l' : IteratorLooper α} (h : l.advance = some (entry, l')) :
    l'.playhead = (l.playhead + 1) % l'.stasher.stash.length ∧
    l'.stasher = l.stasher.stash_next.2 := by
  simp only [IteratorLooper.advance] at h
  split at h
  · cases h
  · cases h
    exact ⟨rfl, rfl⟩

/-- C8: a poll of the streaming frame player before the active frame's
declared interval has elapsed yields nothing and leaves the player
untouched; a poll that yields a frame can only happen once the interval has
elapsed, records the yield time as the new onset, steps the playhead
cyclically modulo the stash length, and any later yield must itself wait at
least the newly active frame's declared interval. -/
theorem frame_pacing {D : Type} (p : StreamingPlayer D) (now : Nat) :
    (now - p.onset < p.interval → p.next now = some (.ok none, p)) ∧
    (∀ (d : D) (p' : StreamingPlayer D), p.next now = some (.ok (some d), p') →
      p.interval ≤ now - p.onset ∧
      p'.onset = now ∧
      p'.looper.playhead = (p.looper.playhead + 1) % p'.looper.stasher.stash.length ∧
      (∀ (now' : Nat) (d' : D) (p'' : StreamingPlayer D),
        p'.next now' = some (.ok (some d'), p'') → p'.interval ≤ now' - now)) := by
  constructor
  · intro hlt
    simp only [StreamingPlayer.next, if_neg (by omega : ¬ p.interval ≤ now - p.onset)]
  · intro d p' h
    have he := player_yield_elapsed h
    simp only [StreamingPlayer.next, if_pos he] at h
    split at h
    · cases h
    · rename_i sample looper' hadv
      cases h
      obtain ⟨h1, -⟩ := advance_playhead hadv
      refine ⟨he, rfl, h1, ?_⟩
      intro now' d' p'' h''
      exact player_yield_elapsed h''
    · cases h

/-- Witness for frame_pacing: a player with onset 10 and interval 4 polled at
time 12 yields nothing and is unchanged. -/
theorem frame_pacing_witness :
    12 - (⟨⟨⟨[], [.ok ⟨7, 5⟩]⟩, 0⟩, 10, 4⟩ : StreamingPlayer Nat).onset
        < (⟨⟨⟨[], [.ok ⟨7, 5⟩]⟩, 0⟩, 10, 4⟩ : StreamingPlayer Nat).interval ∧
    (⟨⟨⟨[], [.ok ⟨7, 5⟩]⟩, 0⟩, 10, 4⟩ : StreamingPlayer Nat).next 12
        = some (.ok none, (⟨⟨⟨[], [.ok ⟨7, 5⟩]⟩, 0⟩, 10, 4⟩ : StreamingPlayer Nat)) := by
  have h : (12 : Nat) - 10 < 4 := by decide
  exact ⟨h, (frame_pacing (⟨⟨⟨[], [.ok ⟨7, 5⟩]⟩, 0⟩, 10, 4⟩ : StreamingPlayer Nat) 12).1 h⟩

/-! ## Zoom geometry lemmas and theorems -/

lemma rustRound_intCast (n : Int) : rustRound (n : ℚ) = n := by
  unfold rustRound
  by_cases hn : (0 : ℚ) ≤ (n : ℚ)
  · rw [if_pos hn, add_comm, Int.floor_add_int]
    norm_num
  · rw [if_neg hn]
    have hcast : -(n : ℚ) + 1 / 2 = 1 / 2 + ((-n : Int) : ℚ) := by
      push_cast
      ring
    rw [hcast, Int.floor_add_int]
    norm_num

lemma rustRound_natCast (n : ℕ) : rustRound (n : ℚ) = (n : ℤ) := by
  have := rustRound_intCast (n : ℤ)
  rwa [Int.cast_natCast] at this

lemma rustClamp_le {x lo hi : ℚ} (h : lo ≤ hi) :
    lo ≤ rustClamp x lo hi ∧ rustClamp x lo hi ≤ hi := by
  unfold rustClamp
  split
  · exact ⟨le_refl lo, h⟩
  · split
    · exact ⟨h, le_refl hi⟩
    · rename_i h1 h2
      exact ⟨not_lt.mp h1, not_lt.mp h2⟩

lemma zoomFactor_mem (z : ZoomInteraction) (hb : z.zoom_bounds.1 ≤ z.zoom_bounds.2)
    (origin_now : Int × Int) (cursor : ℚ × ℚ) :
    z.zoom_bounds.1 ≤ z.zoomFactor origin_now cursor ∧
    z.zoomFactor origin_now cursor ≤ z.zoom_bounds.2 := by
  unfold ZoomInteraction.zoomFactor
  exact rustClamp_le hb

lemma zoom_min_bound {w h : ℕ} (hw : 0 < w) (hh : 0 < h) :
    (max w h : ℚ) *
      (if 1 < (w : ℚ) / (h : ℚ) then MIN_WINDOW_SIZE / (w : ℚ)
       else MIN_WINDOW_SIZE / (h : ℚ)) = 100 := by
  have hwQ : (0 : ℚ) < (w : ℚ) := by exact_mod_cast hw
  have hhQ : (0 : ℚ) < (h : ℚ) := by exact_mod_cast hh
  by_cases hr : 1 < (w : ℚ) / (h : ℚ)
  · rw [if_pos hr]
    have hlt : (h : ℚ) < (w : ℚ) := by
      rw [lt_div_iff₀ hhQ, one_mul] at hr
      exact hr
    have hmax : max (w : ℚ) (h : ℚ) = (w : ℚ) := max_eq_left hlt.le
    rw [hmax, MIN_WINDOW_SIZE]
    field_simp
  · rw [if_neg hr]
    have hle : (w : ℚ) ≤ (h : ℚ) := by
      rw [not_lt, div_le_one hhQ] at hr
      exact hr
    have hmax : max (w : ℚ) (h : ℚ) = (h : ℚ) := max_eq_right hle
    rw [hmax, MIN_WINDOW_SIZE]
    field_simp

lemma zoom_max_bound {w h sw sh : ℕ} (hw : 0 < w) (hh : 0 < h) (hsh : 0 < sh) :
    (if (w : ℚ) / (h : ℚ) < (sw : ℚ) / (sh : ℚ) then (sh : ℚ) / (h : ℚ)
     else (sw : ℚ) / (w : ℚ)) * (w : ℚ) ≤ (sw : ℚ) ∧
    (if (w : ℚ) / (h : ℚ) < (sw : ℚ) / (sh : ℚ) then (sh : ℚ) / (h : ℚ)
     else (sw : ℚ) / (w : ℚ)) * (h : ℚ) ≤ (sh : ℚ) := by
  have hwQ : (0 : ℚ) < (w : ℚ) := by exact_mod_cast hw
  have hhQ : (0 : ℚ) < (h : ℚ) := by exact_mod_cast hh
  have hshQ : (0 : ℚ) < (sh : ℚ) := by exact_mod_cast hsh
  by_cases hr : (w : ℚ) / (h : ℚ) < (sw : ℚ) / (sh : ℚ)
  · rw [if_pos hr]
    have hcross : (w : ℚ) * (sh : ℚ) < (sw : ℚ) * (h : ℚ) :=
      (div_lt_div_iff₀ hhQ hshQ).mp hr
    constructor
    · rw [div_mul_eq_mul_div, div_le_iff₀ hhQ]
      nlinarith
    · rw [div_mul_eq_mul_div, div_le_iff₀ hhQ]
  · rw [if_neg hr]
    have hcross : (sw : ℚ) * (h : ℚ) ≤ (w : ℚ) * (sh : ℚ) :=
      (div_le_div_iff₀ hshQ hhQ).mp (not_lt.mp hr)
    constructor
    · rw [div_mul_eq_mul_div, div_le_iff₀ hwQ]
    · rw [div_mul_eq_mul_div, div_le_iff₀ hwQ]
      nlinarith

/-- C5 counterexample: for a 200 by 100 window on a 1000 by 1000 screen, the
captured min zoom bound is 1/2, and a cursor position reaching that bound
yields a viewport whose height 50 is below the configured floor of 100 —
the min bound does not keep every window dimension at or above the floor. -/
theorem zoom_bounds_cex :
    (ZoomInteraction.new (0, 0) (0, 0) (200, 100) (1000, 1000)).zoom_bounds.1
        = 1 / 2 ∧
    (ZoomInteraction.new (0, 0) (0, 0) (200, 100) (1000, 1000)).zoomFactor
        (0, 0) (-10000, 0) = 1 / 2 ∧
    ((ZoomInteraction.new (0, 0) (0, 0) (200, 100) (1000, 1000)).compute_viewport
        (0, 0) (-10000, 0)).size.2 = 50 ∧
    (50 : ℕ) < 100 := by
  refine ⟨by norm_num [ZoomInteraction.new, MIN_WINDOW_SIZE], ?_, ?_, by norm_num⟩
  · norm_num [ZoomInteraction.new, ZoomInteraction.zoomFactor, MIN_WINDOW_SIZE,
      cursor_to_screen_space, zoomStep, ZOOM_SPEED, rustClamp]
  · norm_num [ZoomInteraction.new, ZoomInteraction.compute_viewport,
      ZoomInteraction.zoomFactor, MIN_WINDOW_SIZE, cursor_to_screen_space,
      zoomStep, ZOOM_SPEED, rustClamp, rustRound]
    decide

/-- C5 (amended): for a context captured from positive window and screen
dimensions whose bounds satisfy the clamp precondition, every computed zoom
factor lies in the captured [min, max]; the min bound keeps the window's
larger captured dimension at or above the floor of 100 (the smaller
dimension may fall below it, as the counterexample shows); and the max bound
never exceeds the exact screen-fit ratio on either axis. -/
theorem zoom_bounds_clamped (cur : ℚ × ℚ) (orig : Int × Int) (w h sw sh : ℕ)
    (hw : 0 < w) (hh : 0 < h) (hsh : 0 < sh)
    (hb : (ZoomInteraction.new cur orig (w, h) (sw, sh)).zoom_bounds.1
        ≤ (ZoomInteraction.new cur orig (w, h) (sw, sh)).zoom_bounds.2)
    (origin_now : Int × Int) (cursor : ℚ × ℚ) :
    (ZoomInteraction.new cur orig (w, h) (sw, sh)).zoom_bounds.1
        ≤ (ZoomInteraction.new cur orig (w, h) (sw, sh)).zoomFactor origin_now cursor ∧
    (ZoomInteraction.new cur orig (w, h) (sw, sh)).zoomFactor origin_now cursor
        ≤ (ZoomInteraction.new cur orig (w, h) (sw, sh)).zoom_bounds.2 ∧
    (100 : ℚ) ≤ (max w h : ℚ) *
        (ZoomInteraction.new cur orig (w, h) (sw, sh)).zoomFactor origin_now cursor ∧
    (ZoomInteraction.new cur orig (w, h) (sw, sh)).zoom_bounds.2 * (w : ℚ) ≤ (sw : ℚ) ∧
    (ZoomInteraction.new cur orig (w, h) (sw, sh)).zoom_bounds.2 * (h : ℚ) ≤ (sh : ℚ) := by
  obtain ⟨hlo, hhi⟩ := zoomFactor_mem (ZoomInteraction.new cur orig (w, h) (sw, sh)) hb
    origin_now cursor
  have hminb : (max w h : ℚ) *
      (ZoomInteraction.new cur orig (w, h) (sw, sh)).zoom_bounds.1 = 100 :=
    zoom_min_bound hw hh
  have hmaxb := @zoom_max_bound w h sw sh hw hh hsh
  have hmaxQ : (0 : ℚ) ≤ (max w h : ℚ) := by positivity
  refine ⟨hlo, hhi, ?_, hmaxb.1, hmaxb.2⟩
  calc (100 : ℚ)
      = (max w h : ℚ) * (ZoomInteraction.new cur orig (w, h) (sw, sh)).zoom_bounds.1 :=
        hminb.symm
    _ ≤ (max w h : ℚ) *
        (ZoomInteraction.new cur orig (w, h) (sw, sh)).zoomFactor origin_now cursor :=
        mul_le_mul_of_nonneg_left hlo hmaxQ

/-- Witness for zoom_bounds_clamped: a 200 by 200 window on a 1000 by 1000
screen, polled at a cursor far to the left. -/
theorem zoom_bounds_clamped_witness :
    (0 : ℕ) < 200 ∧ (0 : ℕ) < 1000 ∧
    (ZoomInteraction.new (0, 0) (0, 0) (200, 200) (1000, 1000)).zoom_bounds.1
        ≤ (ZoomInteraction.new (0, 0) (0, 0) (200, 200) (1000, 1000)).zoom_bounds.2 ∧
    ((ZoomInteraction.new (0, 0) (0, 0) (200, 200) (1000, 1000)).zoom_bounds.1
        ≤ (ZoomInteraction.new (0, 0) (0, 0) (200, 200) (1000, 1000)).zoomFactor
            (0, 0) (-10000, 0) ∧
     (ZoomInteraction.new (0, 0) (0, 0) (200, 200) (1000, 1000)).zoomFactor
            (0, 0) (-10000, 0)
        ≤ (ZoomInteraction.new (0, 0) (0, 0) (200, 200) (1000, 1000)).zoom_bounds.2 ∧
     (100 : ℚ) ≤ (max 200 200 : ℚ) *
        (ZoomInteraction.new (0, 0) (0, 0) (200, 200) (1000, 1000)).zoomFactor
            (0, 0) (-10000, 0) ∧
     (ZoomInteraction.new (0, 0) (0, 0) (200, 200) (1000, 1000)).zoom_bounds.2
        * (200 : ℚ) ≤ (1000 : ℚ) ∧
     (ZoomInteraction.new (0, 0) (0, 0) (200, 200) (1000, 1000)).zoom_bounds.2
        * (200 : ℚ) ≤ (1000 : ℚ)) := by
  have hb : (ZoomInteraction.new (0, 0) (0, 0) (200, 200) (1000, 1000)).zoom_bounds.1
      ≤ (ZoomInteraction.new (0, 0) (0, 0) (200, 200) (1000, 1000)).zoom_bounds.2 := by
    norm_num [ZoomInteraction.new, MIN_WINDOW_SIZE]
  have := zoom_bounds_clamped (0, 0) (0, 0) 200 200 1000 1000
    (by norm_num) (by norm_num) (by norm_num) hb (0, 0) (-10000, 0)
  exact ⟨by norm_num, by norm_num, hb, by exact_mod_cast this⟩

/-- C6 counterexample: a context captured from a 50 by 50 window on a 1000
by 1000 screen has min bound 2, so even with the cursor held at its captured
position the zoom factor is 2, not 1, and the viewport size doubles instead
of reproducing the captured window size. -/
theorem zoom_identity_cex :
    (ZoomInteraction.new (0, 0) (0, 0) (50, 50) (1000, 1000)).zoomFactor
        (0, 0) (0, 0) = 2 ∧
    (2 : ℚ) ≠ 1 ∧
    ((ZoomInteraction.new (0, 0) (0, 0) (50, 50) (1000, 1000)).compute_viewport
        (0, 0) (0, 0)).size = (100, 100) ∧
    ((100, 100) : ℕ × ℕ)
        ≠ (ZoomInteraction.new (0, 0) (0, 0) (50, 50) (1000, 1000)).window_size_captured := by
  refine ⟨?_, by norm_num, ?_, by norm_num [ZoomInteraction.new]⟩
  · norm_num [ZoomInteraction.new, ZoomInteraction.zoomFactor, MIN_WINDOW_SIZE,
      cursor_to_screen_space, zoomStep, ZOOM_SPEED, rustClamp]
  · norm_num [ZoomInteraction.new, ZoomInteraction.compute_viewport,
      ZoomInteraction.zoomFactor, MIN_WINDOW_SIZE, cursor_to_screen_space,
      zoomStep, ZOOM_SPEED, rustClamp, rustRound]
    decide

/-- C6 (amended): for a captured zoom context whose bounds straddle 1 (true
whenever the captured window respects the size floor and fits the screen),
polling compute_viewport with the cursor at its captured screen-space
position yields zoom factor 1, and the viewport reproduces the captured
window origin and size exactly, with the vertical coordinate flipped into
the bottom-left-origin convention. -/
theorem zoom_identity (ctx : ZoomInteraction) (origin_now : Int × Int) (cursor : ℚ × ℚ)
    (hzero : cursor_to_screen_space origin_now cursor = ctx.cursor_captured)
    (hlo : ctx.zoom_bounds.1 ≤ 1) (hhi : 1 ≤ ctx.zoom_bounds.2) :
    ctx.zoomFactor origin_now cursor = 1 ∧
    ctx.compute_viewport origin_now cursor =
      ⟨(ctx.window_origin_captured.1,
        (ctx.screen_size_captured.2 : Int)
          - (ctx.window_origin_captured.2 + (ctx.window_size_captured.2 : Int))),
       ctx.window_size_captured⟩ := by
  have hstep : zoomStep 0 = 1 := by
    simp [zoomStep]
  have hz : ctx.zoomFactor origin_now cursor = 1 := by
    simp only [ZoomInteraction.zoomFactor, hzero, sub_self, zero_mul, hstep,
      mul_one, one_mul]
    unfold rustClamp
    rw [if_neg (not_lt.mpr hlo), if_neg (not_lt.mpr hhi)]
  refine ⟨hz, ?_⟩
  simp only [ZoomInteraction.compute_viewport, hz, mul_one, sub_add_cancel,
    rustRound_intCast, rustRound_natCast, Int.toNat_natCast, Prod.mk.eta]

/-- Witness for zoom_identity: a 400 by 300 window at origin (5, 6) on a
1000 by 1000 screen, cursor back at its captured position. -/
theorem zoom_identity_witness :
    cursor_to_screen_space (0, 0) (20, 30)
        = (ZoomInteraction.new (20, 30) (5, 6) (400, 300) (1000, 1000)).cursor_captured ∧
    (ZoomInteraction.new (20, 30) (5, 6) (400, 300) (1000, 1000)).zoom_bounds.1 ≤ 1 ∧
    1 ≤ (ZoomInteraction.new (20, 30) (5, 6) (400, 300) (1000, 1000)).zoom_bounds.2 ∧
    ((ZoomInteraction.new (20, 30) (5, 6) (400, 300) (1000, 1000)).zoomFactor
        (0, 0) (20, 30) = 1 ∧
     (ZoomInteraction.new (20, 30) (5, 6) (400, 300) (1000, 1000)).compute_viewport
        (0, 0) (20, 30) =
       ⟨(5, (1000 : Int) - (6 + 300)), (400, 300)⟩) := by
  have h1 : cursor_to_screen_space (0, 0) (20, 30)
      = (ZoomInteraction.new (20, 30) (5, 6) (400, 300) (1000, 1000)).cursor_captured := by
    norm_num [cursor_to_screen_space, ZoomInteraction.new]
  have h2 : (ZoomInteraction.new (20, 30) (5, 6) (400, 300) (1000, 1000)).zoom_bounds.1
      ≤ 1 := by
    norm_num [ZoomInteraction.new, MIN_WINDOW_SIZE]
  have h3 : 1 ≤ (ZoomInteraction.new (20, 30) (5, 6) (400, 300) (1000, 1000)).zoom_bounds.2 := by
    norm_num [ZoomInteraction.new, MIN_WINDOW_SIZE]
  exact ⟨h1, h2, h3,
    zoom_identity (ZoomInteraction.new (20, 30) (5, 6) (400, 300) (1000, 1000))
      (0, 0) (20, 30) h1 h2 h3⟩

end Ochra
